import Mathlib

/-!
Verification of `computeSales.py`, a sales-cost calculator.

The program reads a JSON price catalogue (a list of objects with `title`
and `price` fields) and a JSON sales record (a list of objects with
`Product` and `Quantity` fields), builds a dict from title to price, folds
over the sales accumulating `price * quantity`, warns about unknown
products, and writes a two-line report to `SalesResults.txt`.

Numbers are embedded as exact rationals (`ℚ`); a JSON field that may be
absent is an `Option`; a Python run that raises an uncaught exception is
modelled as the value `none`.
-/

namespace ComputeSales

/-- A price-catalogue entry as parsed from JSON.  A field is `none` when
the key is absent from the object, in which case `item["title"]` or
`item["price"]` in the dict comprehension raises an uncaught `KeyError`. -/
structure CatEntry where
  title : Option String
  price : Option ℚ
deriving DecidableEq, Repr

/-- A sales-record entry.  `sale.get('Product')` and `sale.get('Quantity')`
return Python `None` (here `none`) when the key is absent. -/
structure Sale where
  product : Option String
  quantity : Option ℚ
deriving DecidableEq, Repr

/-- The `(item["title"], item["price"])` pair of one catalogue entry;
`none` models the `KeyError` raised when either key is absent. -/
def entryPair (e : CatEntry) : Option (String × ℚ) :=
  match e.title, e.price with
  | some t, some p => some (t, p)
  | _, _ => none

/-- The `(title, price)` pairs of all catalogue entries in input order;
`none` if any entry lacks one of the two keys (the comprehension raises
`KeyError` and `compute_total_cost` aborts). -/
def buildPairs : List CatEntry → Option (List (String × ℚ))
  | [] => some []
  | e :: rest =>
    match entryPair e with
    | some tp => (buildPairs rest).map (fun m => tp :: m)
    | none => none

/-- First-match lookup in an association list of prices. -/
def dictLookup (t : String) : List (String × ℚ) → Option ℚ
  | [] => none
  | kv :: rest => if kv.1 = t then some kv.2 else dictLookup t rest

/-- The dict `product_prices = {item["title"]: item["price"] for item in
price_catalogue}`.  It is represented as the reversed pair list, so that
the first-match `dictLookup` returns the price of the last catalogue entry
with a given title — exactly the overwrite semantics of building a dict
from a sequence.  Only membership and lookup are ever performed on the
dict, so this representation is observationally faithful.  The result is
`none` when some entry lacks `title` or `price` (uncaught `KeyError`). -/
def buildPrices (cat : List CatEntry) : Option (List (String × ℚ)) :=
  (buildPairs cat).map List.reverse

/-- `str(product_name)` as interpolated by the warning f-string: Python
renders an absent product (`None`) as the text `None`. -/
def pyStr : Option String → String
  | some s => s
  | none => "None"

/-- The warning printed for a sale whose product is not a key of
`product_prices`. -/
def warnLine (product_name : Option String) : String :=
  " Product " ++ pyStr product_name ++ " not found in the price catalogue."

/-- The `for sale in sales_record` loop of `compute_total_cost`.  `acc` is
the running `total_cost`.  Returns the final total together with the list
of warning lines printed, in print order; returns `none` when the loop
raises an uncaught exception — which happens exactly when a sale whose
product IS a key of the dict has no `Quantity`, so that Python evaluates
`product_price * None` and raises `TypeError`. -/
def processSalesAux (prices : List (String × ℚ)) (acc : ℚ) :
    List Sale → Option (ℚ × List String)
  | [] => some (acc, [])
  | sale :: rest =>
    match sale.product with
    | some t =>
      match dictLookup t prices with
      | some product_price =>
        match sale.quantity with
        | some quantity =>
          processSalesAux prices (acc + product_price * quantity) rest
        | none => none
      | none =>
        (processSalesAux prices acc rest).map
          (fun r => (r.1, warnLine (some t) :: r.2))
    | none =>
      (processSalesAux prices acc rest).map
        (fun r => (r.1, warnLine none :: r.2))

/-- `compute_total_cost(price_catalogue, sales_record)`: build the price
dict, then fold over the sales from `total_cost = 0.0`.  The result is the
returned total paired with the warnings printed, or `none` when the Python
function raises an uncaught exception (`KeyError` from the dict
comprehension, or `TypeError` from `product_price * None`). -/
def compute_total_cost (price_catalogue : List CatEntry)
    (sales_record : List Sale) : Option (ℚ × List String) :=
  match buildPrices price_catalogue with
  | some prices => processSalesAux prices 0 sales_record
  | none => none

/-- Outcome of opening and `json.load`-ing one input file, as observed by
`main`: the file may be missing (`FileNotFoundError`), syntactically
invalid (`json.JSONDecodeError`), or parse to a list of records. -/
inductive LoadResult (α : Type) where
  | notFound (msg : String)
  | badJson (msg : String)
  | ok (val : α)
deriving DecidableEq

/-- Observable outcome of one run of `main`.  `console` holds the usage,
error and per-record warning lines (exact strings).  `totalShown` is the
total printed in the `Total Cost: $...` console line, when that line is
printed.  `report` is the `(total_cost, elapsed)` pair written to
`SalesResults.txt`, `none` when the file is not written; the two report
lines, `Total Cost: $...` and `Execution Time: ... seconds`, are fixed
2-decimal renderings of these two numbers.  `crashed` records an uncaught
exception (traceback, run aborted). -/
structure RunResult where
  console : List String
  totalShown : Option ℚ
  report : Option (ℚ × ℚ)
  exitCode : Nat
  crashed : Bool
deriving DecidableEq

/-- The usage line printed when the argument count is wrong. -/
def usageLine : String :=
  "Usage: python computeSales.py priceCatalogue.json sales.json"

/-- `main()`.  `argv` is `sys.argv`, program name included, so a correct
invocation has `argv.length = 3` (two positional arguments).  `catLoad`
and `salesLoad` are the outcomes of opening and parsing the two input
files — when the catalogue fails to load, the sales file is never opened
and `salesLoad` is simply not examined.  `startTime` and `endTime` are the
two `time.time()` readings around the computation. -/
def main (argv : List String) (catLoad : LoadResult (List CatEntry))
    (salesLoad : LoadResult (List Sale)) (startTime endTime : ℚ) :
    RunResult :=
  if argv.length ≠ 3 then
    { console := [usageLine], totalShown := none, report := none,
      exitCode := 1, crashed := false }
  else
    match catLoad with
    | .notFound e =>
      { console := ["Error: " ++ e], totalShown := none, report := none,
        exitCode := 0, crashed := false }
    | .badJson e =>
      { console := ["Error: Invalid JSON format in one file " ++ e],
        totalShown := none, report := none, exitCode := 0, crashed := false }
    | .ok price_catalogue =>
      match salesLoad with
      | .notFound e =>
        { console := ["Error: " ++ e], totalShown := none, report := none,
          exitCode := 0, crashed := false }
      | .badJson e =>
        { console := ["Error: Invalid JSON format in one file " ++ e],
          totalShown := none, report := none, exitCode := 0,
          crashed := false }
      | .ok sales_record =>
        match compute_total_cost price_catalogue sales_record with
        | none =>
          { console := [], totalShown := none, report := none,
            exitCode := 1, crashed := true }
        | some (total_cost, warnings) =>
          { console := warnings, totalShown := some total_cost,
            report := some (total_cost, endTime - startTime),
            exitCode := 0, crashed := false }

/-! ### IEEE-754 binary64 arithmetic

Python floats are IEEE-754 binary64 values, and `total_cost +=
product_price * quantity` rounds the result of every operation to the
nearest double, ties to even.  The rounding is modelled exactly for the
normal range (no overflow, underflow or non-finite values), which covers
the magnitudes of catalogue prices and sale quantities at issue. -/

/-- Floor of log2 on naturals, by structural recursion on a fuel argument
(`natLog2Aux n n` halves its argument at most `log2 n` times, so fuel `n`
always suffices). -/
def natLog2Aux : ℕ → ℕ → ℕ
  | 0, _ => 0
  | fuel + 1, n => if 2 ≤ n then natLog2Aux fuel (n / 2) + 1 else 0

/-- `⌊log2 n⌋` for positive `n` (and 0 at 0). -/
def natLog2 (n : ℕ) : ℕ := natLog2Aux n n

/-- Whether `2 ^ k ≤ a / b`, for positive naturals `a`, `b`. -/
def pow2Le (k : ℤ) (a b : ℕ) : Bool :=
  match k with
  | .ofNat n => decide (b * 2 ^ n ≤ a)
  | .negSucc n => decide (b ≤ a * 2 ^ (n + 1))

/-- `⌊log2 (a / b)⌋` for positive naturals `a`, `b`: the difference of the
two integer logs overestimates by at most one, so one comparison fixes
it. -/
def ratFloorLog2 (a b : ℕ) : ℤ :=
  let k : ℤ := (natLog2 a : ℤ) - (natLog2 b : ℤ)
  if pow2Le k a b then k else k - 1

/-- Round the nonnegative rational `A / B` to the nearest integer, ties to
even. -/
def rne (A B : ℕ) : ℕ :=
  let q := A / B
  let r := A % B
  if 2 * r < B then q
  else if B < 2 * r then q + 1
  else if q % 2 = 0 then q else q + 1

/-- Round a rational to the nearest IEEE-754 binary64 value (round to
nearest, ties to even), in the normal range: the exponent `e` is chosen so
the scaled magnitude lies in `[2^52, 2^53)`, and that scaled magnitude is
rounded to a 53-bit integer significand. -/
def roundDouble (q : ℚ) : ℚ :=
  if q.num = 0 then 0
  else
    let a : ℕ := q.num.natAbs
    let b : ℕ := q.den
    let e : ℤ := ratFloorLog2 a b - 52
    let m : ℕ :=
      match e with
      | .ofNat n => rne a (b * 2 ^ n)
      | .negSucc n => rne (a * 2 ^ (n + 1)) b
    let mag : ℚ :=
      match e with
      | .ofNat n => ((m * 2 ^ n : ℕ) : ℚ)
      | .negSucc n => Rat.divInt (m : ℤ) ((2 ^ (n + 1) : ℕ) : ℤ)
    if 0 ≤ q.num then mag else -mag

/-- Python float addition: the exact sum
`(x.num * y.den + y.num * x.den) / (x.den * y.den)`, rounded to
binary64. -/
def fladd (x y : ℚ) : ℚ :=
  roundDouble
    (Rat.divInt (x.num * (y.den : ℤ) + y.num * (x.den : ℤ))
      ((x.den * y.den : ℕ) : ℤ))

/-- Python float multiplication: the exact product
`(x.num * y.num) / (x.den * y.den)`, rounded to binary64. -/
def flmul (x y : ℚ) : ℚ :=
  roundDouble (Rat.divInt (x.num * y.num) ((x.den * y.den : ℕ) : ℤ))

/-- The sales loop with the source's actual floating-point arithmetic:
identical to `processSalesAux` except that
`total_cost += product_price * quantity` rounds at the multiplication and
at the addition, as Python doubles do. -/
def processSalesAuxFloat (prices : List (String × ℚ)) (acc : ℚ) :
    List Sale → Option (ℚ × List String)
  | [] => some (acc, [])
  | sale :: rest =>
    match sale.product with
    | some t =>
      match dictLookup t prices with
      | some product_price =>
        match sale.quantity with
        | some quantity =>
          processSalesAuxFloat prices
            (fladd acc (flmul product_price quantity)) rest
        | none => none
      | none =>
        (processSalesAuxFloat prices acc rest).map
          (fun r => (r.1, warnLine (some t) :: r.2))
    | none =>
      (processSalesAuxFloat prices acc rest).map
        (fun r => (r.1, warnLine none :: r.2))

/-- `compute_total_cost` with the source's floating-point accumulation:
the faithful model of the returned total down to rounding.
`compute_total_cost` above is its exact-arithmetic abstraction. -/
def compute_total_cost_float (price_catalogue : List CatEntry)
    (sales_record : List Sale) : Option (ℚ × List String) :=
  match buildPrices price_catalogue with
  | some prices => processSalesAuxFloat prices 0 sales_record
  | none => none

/-- A catalogue holding the doubles that the JSON literals `0.1`, `0.2`
and `0.3` parse to. -/
def floatCat : List CatEntry :=
  [⟨some "A", some (roundDouble (mkRat 1 10))⟩,
   ⟨some "B", some (roundDouble (mkRat 2 10))⟩,
   ⟨some "C", some (roundDouble (mkRat 3 10))⟩]

/-- Three matched sales of quantity 1 over `floatCat`, ascending prices. -/
def floatSalesAsc : List Sale :=
  [⟨some "A", some 1⟩, ⟨some "B", some 1⟩, ⟨some "C", some 1⟩]

/-- The same three sales in the reverse order. -/
def floatSalesDesc : List Sale :=
  [⟨some "C", some 1⟩, ⟨some "B", some 1⟩, ⟨some "A", some 1⟩]

/-! ### Spec-side definitions

These restate the specification's invariant
`total_cost = Σ over sales records where product exists in catalogue of
(catalogue_price[product] * quantity)` in its own words, to be compared
with `compute_total_cost`. -/

/-- Whether a sale's product is a key of the price mapping (false when the
`Product` key is absent: `None` is never a key of the string-keyed dict). -/
def saleMatched (prices : List (String × ℚ)) (s : Sale) : Bool :=
  match s.product with
  | some t => (dictLookup t prices).isSome
  | none => false

/-- Spec-side contribution of one sale record: the catalogue price of its
product times its quantity when the product is a key of the mapping, and
zero otherwise.  An absent quantity is read as 0 here; the claims that use
this definition assume every quantity present. -/
def specContribution (prices : List (String × ℚ)) (s : Sale) : ℚ :=
  match s.product with
  | some t =>
    match dictLookup t prices with
    | some p => p * s.quantity.getD 0
    | none => 0
  | none => 0

/-- Spec-side total: the sum over all sales records of their
contributions. -/
def specTotal (prices : List (String × ℚ)) (sales : List Sale) : ℚ :=
  (sales.map (specContribution prices)).sum

/-- Spec-side warnings: one line per unmatched sale, in input order. -/
def specWarnings (prices : List (String × ℚ)) (sales : List Sale) :
    List String :=
  (sales.filter (fun s => !saleMatched prices s)).map
    (fun s => warnLine s.product)

/-! ### Helper lemmas -/

/-- When every sale has a quantity, the sales loop never raises, and its
result is the accumulator plus the spec-side total, with the spec-side
warnings. -/
theorem processSalesAux_eq_spec (prices : List (String × ℚ))
    (sales : List Sale) (hq : ∀ s ∈ sales, s.quantity ≠ none) :
    ∀ acc : ℚ, processSalesAux prices acc sales =
      some (acc + specTotal prices sales, specWarnings prices sales) := by
  induction sales with
  | nil => intro acc; simp [processSalesAux, specTotal, specWarnings]
  | cons sale rest ih =>
    intro acc
    have hqs : sale.quantity ≠ none := hq sale (by simp)
    have hqr : ∀ s ∈ rest, s.quantity ≠ none := fun s hs => hq s (by simp [hs])
    obtain ⟨q, hq'⟩ : ∃ q, sale.quantity = some q := by
      cases h : sale.quantity with
      | none => exact absurd h hqs
      | some q => exact ⟨q, rfl⟩
    cases hp : sale.product with
    | none =>
      simp [processSalesAux, hp, ih hqr acc, specTotal, specWarnings,
        saleMatched, specContribution, List.filter_cons]
    | some t =>
      cases hl : dictLookup t prices with
      | none =>
        simp [processSalesAux, hp, hl, ih hqr acc, specTotal, specWarnings,
          saleMatched, specContribution, List.filter_cons]
      | some p =>
        simp only [processSalesAux, hp, hl, hq', ih hqr, specTotal,
          specWarnings, List.map_cons, List.sum_cons, List.filter_cons,
          saleMatched, specContribution, Option.isSome_some, Bool.not_true,
          Option.getD_some, Option.some.injEq, Prod.mk.injEq]
        refine ⟨by ring, by simp⟩

/-- When every catalogue entry has both keys, the dict comprehension does
not raise and produces exactly the extracted pairs, in order. -/
theorem buildPairs_of_wellFormed (cat : List CatEntry)
    (hcat : ∀ e ∈ cat, e.title ≠ none ∧ e.price ≠ none) :
    buildPairs cat = some (cat.filterMap entryPair) := by
  induction cat with
  | nil => rfl
  | cons e rest ih =>
    obtain ⟨ht, hp⟩ := hcat e (by simp)
    obtain ⟨t, ht'⟩ : ∃ t, e.title = some t := by
      cases h : e.title with
      | none => exact absurd h ht
      | some t => exact ⟨t, rfl⟩
    obtain ⟨p, hp'⟩ : ∃ p, e.price = some p := by
      cases h : e.price with
      | none => exact absurd h hp
      | some p => exact ⟨p, rfl⟩
    have ihr := ih (fun x hx => hcat x (by simp [hx]))
    simp [buildPairs, entryPair, ht', hp', ihr]

/-- String concatenation is associative (via the underlying char list). -/
theorem stringAppend_assoc (a b c : String) : a ++ b ++ c = a ++ (b ++ c) :=
  String.ext (by simp [String.data_append, List.append_assoc])

/-- Lookup consults the left part of an appended list first. -/
theorem dictLookup_append (t : String) (xs ys : List (String × ℚ)) :
    dictLookup t (xs ++ ys) =
      match dictLookup t xs with
      | some p => some p
      | none => dictLookup t ys := by
  induction xs with
  | nil => simp [dictLookup]
  | cons kv rest ih =>
    by_cases h : kv.1 = t <;> simp [dictLookup, h, ih]

/-- Lookup misses a list none of whose keys is the sought title. -/
theorem dictLookup_eq_none (t : String) (xs : List (String × ℚ))
    (h : ∀ kv ∈ xs, kv.1 ≠ t) : dictLookup t xs = none := by
  induction xs with
  | nil => rfl
  | cons kv rest ih =>
    have h1 : kv.1 ≠ t := h kv (by simp)
    simp [dictLookup, h1, ih (fun x hx => h x (by simp [hx]))]

/-- The catalogue of the spec's end-to-end example (prices kept integral
for direct evaluation). -/
def exCat : List CatEntry := [⟨some "A", some 10⟩, ⟨some "B", some 4⟩]

/-- An extracted pair's key is the entry's title. -/
theorem entryPair_title (e : CatEntry) (kv : String × ℚ)
    (h : entryPair e = some kv) : e.title = some kv.1 := by
  unfold entryPair at h
  cases ht : e.title with
  | none => rw [ht] at h; exact absurd h (by simp)
  | some s =>
    cases hp : e.price with
    | none => rw [ht, hp] at h; exact absurd h (by simp)
    | some p =>
      rw [ht, hp] at h
      simp only [Option.some.injEq] at h
      cases h
      simp [ht]

/-- A catalogue entry lacking `title` or `price` makes the dict
comprehension fail. -/
theorem buildPairs_eq_none_of_malformed (cat : List CatEntry)
    (hbad : ∃ e ∈ cat, e.title = none ∨ e.price = none) :
    buildPairs cat = none := by
  induction cat with
  | nil => simp at hbad
  | cons x rest ih =>
    obtain ⟨e, he, h1⟩ := hbad
    rcases List.mem_cons.mp he with rfl | hmem
    · have hx : entryPair e = none := by
        rcases h1 with h | h
        · simp [entryPair, h]
        · cases ht : e.title <;> simp [entryPair, ht, h]
      simp [buildPairs, hx]
    · have hr := ih ⟨e, hmem, h1⟩
      cases hx : entryPair x <;> simp [buildPairs, hx, hr]

/-! ### Claims -/

/-- C2 (amended): when every sale's product exists in the catalogue and
every quantity is present and non-negative, the total of
`compute_total_cost` computed in exact (real-number) arithmetic is the
same for the sales list and for any permutation of it.  The original
claim — that the program's own total is permutation invariant — is false:
the source accumulates IEEE-754 doubles, whose addition is
order-sensitive; see `float_total_order_dependent`. -/
theorem total_invariant_under_permutation (cat : List CatEntry)
    (S S2 : List Sale) (hperm : S.Perm S2)
    (_hprod : ∀ s ∈ S, ∃ t, s.product = some t ∧ ∃ e ∈ cat, e.title = some t)
    (hq : ∀ s ∈ S, ∃ q, s.quantity = some q ∧ 0 ≤ q) :
    (compute_total_cost cat S).map Prod.fst =
      (compute_total_cost cat S2).map Prod.fst := by
  cases hb : buildPrices cat with
  | none => simp [compute_total_cost, hb]
  | some prices =>
    have hqS : ∀ s ∈ S, s.quantity ≠ none := by
      intro s hs
      obtain ⟨q, hq1, _⟩ := hq s hs
      simp [hq1]
    have hqS2 : ∀ s ∈ S2, s.quantity ≠ none := fun s hs =>
      hqS s (hperm.mem_iff.mpr hs)
    have h1 := processSalesAux_eq_spec prices S hqS 0
    have h2 := processSalesAux_eq_spec prices S2 hqS2 0
    have hsum : specTotal prices S = specTotal prices S2 :=
      List.Perm.sum_eq (hperm.map (specContribution prices))
    simp [compute_total_cost, hb, h1, h2, hsum]

/-- Witness for C2: swapping two matched records of the example. -/
theorem total_invariant_under_permutation_witness :
    (compute_total_cost exCat
        [⟨some "A", some 3⟩, ⟨some "B", some 2⟩]).map Prod.fst =
      (compute_total_cost exCat
        [⟨some "B", some 2⟩, ⟨some "A", some 3⟩]).map Prod.fst :=
  total_invariant_under_permutation exCat
    [⟨some "A", some 3⟩, ⟨some "B", some 2⟩]
    [⟨some "B", some 2⟩, ⟨some "A", some 3⟩]
    (by decide)
    (by
      intro s hs
      simp only [List.mem_cons, List.not_mem_nil, or_false] at hs
      rcases hs with rfl | rfl
      · exact ⟨"A", rfl, ⟨some "A", some 10⟩, by simp [exCat], rfl⟩
      · exact ⟨"B", rfl, ⟨some "B", some 4⟩, by simp [exCat], rfl⟩)
    (by
      intro s hs
      simp only [List.mem_cons, List.not_mem_nil, or_false] at hs
      rcases hs with rfl | rfl
      · exact ⟨3, rfl, by norm_num⟩
      · exact ⟨2, rfl, by norm_num⟩)

/-- C3: a sale whose product is not a key of the price dict contributes
exactly zero to the total, emits exactly one warning line of the form
` Product <name> not found in the price catalogue.` naming that product,
and processing continues with the remaining records. -/
theorem unknown_product_zero_and_one_warning (cat : List CatEntry)
    (prices : List (String × ℚ)) (s : Sale) (rest : List Sale) (t : String)
    (hb : buildPrices cat = some prices) (hp : s.product = some t)
    (hmiss : dictLookup t prices = none) :
    compute_total_cost cat (s :: rest) =
      (compute_total_cost cat rest).map
        (fun r =>
          (r.1,
            (" Product " ++ t ++ " not found in the price catalogue.")
              :: r.2)) := by
  simp [compute_total_cost, hb, processSalesAux, hp, hmiss, warnLine, pyStr]

/-- Witness for C3: the unknown product C of the example. -/
theorem unknown_product_zero_and_one_warning_witness :
    compute_total_cost exCat [⟨some "C", some 1⟩, ⟨some "A", some 3⟩] =
      (compute_total_cost exCat [⟨some "A", some 3⟩]).map
        (fun r =>
          (r.1,
            (" Product " ++ "C" ++ " not found in the price catalogue.")
              :: r.2)) :=
  unknown_product_zero_and_one_warning exCat [("B", 4), ("A", 10)]
    ⟨some "C", some 1⟩ [⟨some "A", some 3⟩] "C" (by decide) rfl (by decide)

/-- C10: a sale whose `Product` key is absent does not crash the loop: it
is handled by the unknown-product branch, contributes zero to the total,
and produces one warning line naming the missing product as `None`. -/
theorem missing_product_key_warns_none (cat : List CatEntry) (s : Sale)
    (rest : List Sale) (hp : s.product = none) :
    compute_total_cost cat (s :: rest) =
      (compute_total_cost cat rest).map
        (fun r =>
          (r.1, " Product None not found in the price catalogue." :: r.2)) := by
  cases hb : buildPrices cat with
  | none => simp [compute_total_cost, hb]
  | some prices =>
    simp [compute_total_cost, hb, processSalesAux, hp, warnLine, pyStr]

/-- Witness for C10: a record with no `Product` key at all. -/
theorem missing_product_key_warns_none_witness :
    compute_total_cost exCat [⟨none, some 2⟩, ⟨some "A", some 3⟩] =
      (compute_total_cost exCat [⟨some "A", some 3⟩]).map
        (fun r =>
          (r.1, " Product None not found in the price catalogue." :: r.2)) :=
  missing_product_key_warns_none exCat ⟨none, some 2⟩ [⟨some "A", some 3⟩] rfl

/-- C4: when the same title occurs more than once in the catalogue with
different prices, the price the computation uses for that title is the
price of the last occurrence in input order — later duplicates overwrite
earlier ones, and the dict is still built without error or warning. -/
theorem duplicate_title_last_wins (pre mid post : List CatEntry)
    (e1 e2 : CatEntry) (t : String)
    (hwf : ∀ e ∈ pre ++ [e1] ++ mid ++ [e2] ++ post,
      e.title ≠ none ∧ e.price ≠ none)
    (_h1 : e1.title = some t) (h2 : e2.title = some t)
    (_hne : e1.price ≠ e2.price)
    (hlast : ∀ e ∈ post, e.title ≠ some t) :
    ∃ prices,
      buildPrices (pre ++ [e1] ++ mid ++ [e2] ++ post) = some prices ∧
      dictLookup t prices = e2.price := by
  have hwf2 := hwf e2 (by simp)
  obtain ⟨p2, hp2⟩ : ∃ p, e2.price = some p := by
    cases h : e2.price with
    | none => exact absurd h hwf2.2
    | some p => exact ⟨p, rfl⟩
  have hb := buildPairs_of_wellFormed _ hwf
  refine ⟨(List.filterMap entryPair
      (pre ++ [e1] ++ mid ++ [e2] ++ post)).reverse, ?_, ?_⟩
  · unfold buildPrices
    rw [hb]
    rfl
  · have hmiss : dictLookup t (List.filterMap entryPair post).reverse
        = none := by
      refine dictLookup_eq_none t _ (fun kv hkv => ?_)
      rw [List.mem_reverse] at hkv
      obtain ⟨e, he, hpe⟩ := List.mem_filterMap.mp hkv
      intro hEq
      exact hlast e he (hEq ▸ entryPair_title e kv hpe)
    have he2 : entryPair e2 = some (t, p2) := by
      simp [entryPair, h2, hp2]
    rw [hp2]
    simp only [List.filterMap_append, List.filterMap_cons, he2,
      List.filterMap_nil, List.reverse_append, List.append_assoc]
    rw [dictLookup_append, hmiss]
    simp [dictLookup]

/-- Witness for C4: the title A priced 10 and then 7; the dict serves 7. -/
theorem duplicate_title_last_wins_witness :
    ∃ prices,
      buildPrices ([] ++ [⟨some "A", some 10⟩] ++ [] ++ [⟨some "A", some 7⟩]
        ++ []) = some prices ∧
      dictLookup "A" prices = (⟨some "A", some 7⟩ : CatEntry).price :=
  duplicate_title_last_wins [] [] [] ⟨some "A", some 10⟩ ⟨some "A", some 7⟩
    "A" (by decide) rfl rfl (by decide) (by decide)

/-- C5 (code-bug evidence): a sale whose `Quantity` key is absent while
its product IS in the catalogue makes the loop evaluate
`product_price * None`; the resulting `TypeError` is uncaught, so
`compute_total_cost` aborts the whole run — the record is not reported and
skipped — and `main` writes no report. -/
theorem missing_quantity_crashes_run :
    compute_total_cost [⟨some "A", some 10⟩] [⟨some "A", none⟩] = none ∧
    main ["computeSales.py", "prices.json", "sales.json"]
        (.ok [⟨some "A", some 10⟩]) (.ok [⟨some "A", none⟩]) 0 1 =
      { console := [], totalShown := none, report := none, exitCode := 1,
        crashed := true } := by
  constructor
  · decide
  · decide

/-- C6: when opening or parsing either input file fails, `main` prints a
single `Error: ...` console line, never reaches the computation (no total
is shown), and writes no `SalesResults.txt` report. -/
theorem load_failure_reports_and_writes_nothing (argv : List String)
    (catLoad : LoadResult (List CatEntry))
    (salesLoad : LoadResult (List Sale)) (t1 t2 : ℚ)
    (hargv : argv.length = 3)
    (hfail :
      (∃ e, catLoad = .notFound e ∨ catLoad = .badJson e) ∨
      ((∃ c, catLoad = .ok c) ∧
        ∃ e, salesLoad = .notFound e ∨ salesLoad = .badJson e)) :
    ∃ msg, (main argv catLoad salesLoad t1 t2).console = ["Error: " ++ msg] ∧
      (main argv catLoad salesLoad t1 t2).totalShown = none ∧
      (main argv catLoad salesLoad t1 t2).report = none := by
  have hlit : ∀ e : String,
      "Error: Invalid JSON format in one file " ++ e =
        "Error: " ++ ("Invalid JSON format in one file " ++ e) := by
    intro e
    have h' : ("Error: Invalid JSON format in one file " : String) =
        "Error: " ++ "Invalid JSON format in one file " := rfl
    rw [h', stringAppend_assoc]
  rcases hfail with ⟨e, he | he⟩ | ⟨⟨c, hc⟩, e, he | he⟩ <;> subst_vars
  · exact ⟨e, by simp [main, hargv]⟩
  · refine ⟨"Invalid JSON format in one file " ++ e, ?_, ?_, ?_⟩ <;>
      simp [main, hargv, hlit e]
  · exact ⟨e, by simp [main, hargv]⟩
  · refine ⟨"Invalid JSON format in one file " ++ e, ?_, ?_, ?_⟩ <;>
      simp [main, hargv, hlit e]

/-- Witness for C6: a missing catalogue file. -/
theorem load_failure_reports_and_writes_nothing_witness :
    ∃ msg, (main ["computeSales.py", "prices.json", "sales.json"]
        (.notFound "no such file") (.ok ([] : List Sale)) 0 1).console =
      ["Error: " ++ msg] ∧
      (main ["computeSales.py", "prices.json", "sales.json"]
        (.notFound "no such file") (.ok ([] : List Sale)) 0 1).totalShown =
        none ∧
      (main ["computeSales.py", "prices.json", "sales.json"]
        (.notFound "no such file") (.ok ([] : List Sale)) 0 1).report =
        none :=
  load_failure_reports_and_writes_nothing _ _ _ 0 1 rfl
    (Or.inl ⟨"no such file", Or.inl rfl⟩)

/-- C7: any argument count other than exactly two positional arguments
(`sys.argv` length other than 3) prints the usage line, exits with a
non-zero status, and writes no output file. -/
theorem wrong_arg_count_usage_and_nonzero_exit (argv : List String)
    (catLoad : LoadResult (List CatEntry))
    (salesLoad : LoadResult (List Sale)) (t1 t2 : ℚ)
    (h : argv.length ≠ 3) :
    (main argv catLoad salesLoad t1 t2).console = [usageLine] ∧
    (main argv catLoad salesLoad t1 t2).exitCode ≠ 0 ∧
    (main argv catLoad salesLoad t1 t2).report = none := by
  simp [main, h]

/-- Witness for C7: invocation with no arguments at all. -/
theorem wrong_arg_count_usage_and_nonzero_exit_witness :
    (main ["computeSales.py"] (.ok ([] : List CatEntry))
        (.ok ([] : List Sale)) 0 1).console = [usageLine] ∧
    (main ["computeSales.py"] (.ok ([] : List CatEntry))
        (.ok ([] : List Sale)) 0 1).exitCode ≠ 0 ∧
    (main ["computeSales.py"] (.ok ([] : List CatEntry))
        (.ok ([] : List Sale)) 0 1).report = none :=
  wrong_arg_count_usage_and_nonzero_exit ["computeSales.py"] _ _ 0 1
    (by decide)

/-- C8: the run outcome is deterministic in the inputs: two runs on the
same argv and the same file contents print the same console lines, show
the same total, and write the same total to the report; only the
elapsed-time component depends on the clock readings. -/
theorem run_deterministic_in_inputs (argv : List String)
    (catLoad : LoadResult (List CatEntry))
    (salesLoad : LoadResult (List Sale)) (t1 t2 t3 t4 : ℚ) :
    (main argv catLoad salesLoad t1 t2).console =
      (main argv catLoad salesLoad t3 t4).console ∧
    (main argv catLoad salesLoad t1 t2).totalShown =
      (main argv catLoad salesLoad t3 t4).totalShown ∧
    (main argv catLoad salesLoad t1 t2).report.map Prod.fst =
      (main argv catLoad salesLoad t3 t4).report.map Prod.fst := by
  by_cases h : argv.length = 3
  · cases catLoad with
    | notFound e => simp [main, h]
    | badJson e => simp [main, h]
    | ok cat =>
      cases salesLoad with
      | notFound e => simp [main, h]
      | badJson e => simp [main, h]
      | ok sales =>
        cases hc : compute_total_cost cat sales with
        | none => simp [main, h, hc]
        | some r => obtain ⟨a, b⟩ := r; simp [main, h, hc]
  · simp [main, h]

/-- C9: a catalogue entry lacking `title` or `price` makes the dict
comprehension raise an uncaught `KeyError`: `compute_total_cost` crashes
whatever the sales are, and the run aborts with no report instead of
recovering it as a per-record error. -/
theorem malformed_catalogue_entry_aborts (cat : List CatEntry)
    (sales : List Sale) (argv : List String) (t1 t2 : ℚ)
    (hargv : argv.length = 3)
    (hbad : ∃ e ∈ cat, e.title = none ∨ e.price = none) :
    compute_total_cost cat sales = none ∧
    (main argv (.ok cat) (.ok sales) t1 t2).crashed = true ∧
    (main argv (.ok cat) (.ok sales) t1 t2).report = none := by
  have hpairs := buildPairs_eq_none_of_malformed cat hbad
  have hcomp : compute_total_cost cat sales = none := by
    simp [compute_total_cost, buildPrices, hpairs]
  exact ⟨hcomp, by simp [main, hargv, hcomp], by simp [main, hargv, hcomp]⟩

/-- Witness for C9: an entry with a price but no title. -/
theorem malformed_catalogue_entry_aborts_witness :
    compute_total_cost [⟨none, some 5⟩] [] = none ∧
    (main ["computeSales.py", "prices.json", "sales.json"]
        (.ok [⟨none, some 5⟩]) (.ok []) 0 1).crashed = true ∧
    (main ["computeSales.py", "prices.json", "sales.json"]
        (.ok [⟨none, some 5⟩]) (.ok []) 0 1).report = none :=
  malformed_catalogue_entry_aborts [⟨none, some 5⟩] [] _ 0 1 rfl
    ⟨⟨none, some 5⟩, by simp, Or.inl rfl⟩

/-- C2 counterexample: with the source's IEEE-754 double accumulation,
the catalogue prices 0.1, 0.2 and 0.3 (as parsed doubles) and three
matched sales of quantity 1 satisfy every hypothesis of the claim, yet
summing the records in ascending price order returns
0.6000000000000001 while the reverse order returns 0.6 — the program's
total is not invariant under permutation of the sales records. -/
theorem float_total_order_dependent :
    floatSalesAsc.Perm floatSalesDesc ∧
    (∀ s ∈ floatSalesAsc, ∃ t, s.product = some t ∧
      ∃ e ∈ floatCat, e.title = some t) ∧
    (∀ s ∈ floatSalesAsc, ∃ q, s.quantity = some q ∧ 0 ≤ q) ∧
    (compute_total_cost_float floatCat floatSalesAsc).map Prod.fst ≠
      (compute_total_cost_float floatCat floatSalesDesc).map Prod.fst := by
  refine ⟨by decide, ?_, ?_, by decide⟩
  · intro s hs
    simp only [floatSalesAsc, List.mem_cons, List.not_mem_nil,
      or_false] at hs
    rcases hs with rfl | rfl | rfl
    · exact ⟨"A", rfl, ⟨some "A", some (roundDouble (mkRat 1 10))⟩,
        by simp [floatCat], rfl⟩
    · exact ⟨"B", rfl, ⟨some "B", some (roundDouble (mkRat 2 10))⟩,
        by simp [floatCat], rfl⟩
    · exact ⟨"C", rfl, ⟨some "C", some (roundDouble (mkRat 3 10))⟩,
        by simp [floatCat], rfl⟩
  · intro s hs
    simp only [floatSalesAsc, List.mem_cons, List.not_mem_nil,
      or_false] at hs
    rcases hs with rfl | rfl | rfl <;> exact ⟨1, rfl, by norm_num⟩

end ComputeSales

